import Mathlib

/-!
Verification of the per-frame top-N selection ("Frame Selector & Sequencer")
of the barplot-timeseries-visualizer repository.

The code under scrutiny is the frame body shared by `save_animation.animate`,
`show_animation.animate` (src/main.py, src/animation.py) and `draw_frame`:

    frame_data = df[df['dt'] == frame]
    top_items  = frame_data.nlargest(n_largest, 'x')

together with the icon helpers `load_icons` / `add_icons`.

Pandas semantics embedded here:
  * `df[df['dt'] == frame]` keeps, in order, exactly the rows whose `dt`
    column equals `frame`; it raises KeyError if the column `dt` is absent.
  * `DataFrame.nlargest(n, 'x')` (default `keep='first'`) returns the rows
    with the n greatest values of column `x`, sorted descending, ties broken
    by original row order (pandas implements it as a stable mergesort-based
    selection; the docs state it is equivalent to a descending sort followed
    by `head(n)`, with `keep='first'` prioritizing earlier rows).  For
    n <= 0 it returns an empty frame; it raises KeyError if `x` is absent.
  * Rendering the frame (`sns.barplot(y='label', data=top_items)` or
    `ax.barh(y=top_items['label'], ...)`) reads the `label` column and fails
    when it is absent.
Values are modelled over `Int`: the selection logic is purely
comparison-based, so any linear order is a faithful carrier.
-/

namespace BarRace

/-- One record of the dataset: time key column `dt`, categorical column
`label`, numeric column `x`. -/
structure Row where
  dt : Int
  label : String
  x : Int
deriving DecidableEq, Repr

/-- Insert a row into a list so that it lands after every row with a
strictly greater value and before every remaining row.  This is the
single insertion step of a stable descending sort. -/
def insertDesc (r : Row) : List Row → List Row
  | [] => [r]
  | b :: bs => if b.x > r.x then b :: insertDesc r bs else r :: b :: bs

/-- Stable descending insertion sort on the value column, the order
produced by `DataFrame.nlargest` with `keep='first'`: values descending,
rows of equal value in original input order. -/
def sortDesc : List Row → List Row
  | [] => []
  | a :: l => insertDesc a (sortDesc l)

/-- `df[df['dt'] == t].nlargest(n, 'x')`: filter the dataset to the rows of
time key `t`, then take the `n` rows of greatest value, sorted descending,
ties broken by input order.  `n = 0` yields the empty list, as pandas
`nlargest` does for a non-positive rank. -/
def select_top_n (rows : List Row) (t : Int) (n : Nat) : List Row :=
  (sortDesc (rows.filter (fun r => r.dt == t))).take n

/-- A pandas DataFrame as the frame body sees it: which of the required
columns are present, plus the row data.  Accessing an absent column raises
(KeyError in pandas, a seaborn error for the plotted `label` column). -/
structure DataFrame where
  hasDt : Bool
  hasLabel : Bool
  hasX : Bool
  rows : List Row
deriving DecidableEq, Repr

/-- Failure conditions of the per-frame computation.  `MissingColumn c`
models the exception raised when column `c` is accessed but absent. -/
inductive FrameError where
  | MissingColumn (col : String)
deriving DecidableEq, Repr

/-- The per-frame computation of `animate` / `draw_frame`: select the
top-N window, then extract the render instruction (label, value) pairs.
Column accesses happen in source order: `df['dt']` (the boolean mask),
then `'x'` (inside `nlargest`), then `'label'` (drawing the bars); the
first absent one aborts the frame. -/
def animate_frame (df : DataFrame) (frame : Int) (n : Nat) :
    Except FrameError (List (String × Int)) :=
  if df.hasDt = false then Except.error (FrameError.MissingColumn "dt")
  else if df.hasX = false then Except.error (FrameError.MissingColumn "x")
  else if df.hasLabel = false then Except.error (FrameError.MissingColumn "label")
  else Except.ok ((select_top_n df.rows frame n).map (fun r => (r.label, r.x)))

/-- The frame body as a state transformer on the dataset: it returns the
top-N window together with the dataset it leaves behind.  Both
`df[df['dt'] == frame]` and `nlargest` return fresh objects, so the
dataset component is passed through untouched. -/
def animate_run (rows : List Row) (t : Int) (n : Nat) : List Row × List Row :=
  let frame_data := rows.filter (fun r => r.dt == t)
  let top_items := (sortDesc frame_data).take n
  (top_items, rows)

/-- The frame sequencer: `FuncAnimation(fig, animate, frames=frames)` calls
the frame body once per element of `frames`, producing one
(time key, Top-N window) pair per frame. -/
def frame_sequence (rows : List Row) (frames : List Int) (n : Nat) :
    List (Int × List Row) :=
  frames.map (fun t => (t, select_top_n rows t n))

/-- `df[label_col].unique()`: the distinct labels in first-occurrence
order, as pandas computes them. -/
def uniqueAux : List String → List String → List String
  | _, [] => []
  | seen, a :: l =>
    if a ∈ seen then uniqueAux seen l else a :: uniqueAux (a :: seen) l

def uniqueLabels (rows : List Row) : List String :=
  uniqueAux [] (rows.map (fun r => r.label))

/-- `os.path.join(icon_folder, f"{label}.png")`. -/
def iconPath (folder label : String) : String :=
  folder ++ "/" ++ label ++ ".png"

/-- Python dict lookup on an association list (the keys produced by
`load_icons` are distinct, so first-match lookup agrees with dict). -/
def dictLookup (k : String) : List (String × String) → Option String
  | [] => none
  | (a, v) :: l => if a == k then some v else dictLookup k l

/-- `load_icons`: for each distinct label of the dataset, if the file
`icon_folder/label.png` exists it is opened and stored under the label;
labels whose file is absent are silently skipped.  The filesystem is the
predicate `fs` (`os.path.exists`); the loaded image is abstracted to its
path. -/
def load_icons (rows : List Row) (icon_folder : String) (fs : String → Bool) :
    List (String × String) :=
  (uniqueLabels rows).filterMap (fun label =>
    if fs (iconPath icon_folder label) then
      some (label, iconPath icon_folder label)
    else none)

/-- `add_icons`: walk the y-tick labels of the drawn frame and attach an
image box for each label present in the icons dict; labels absent from the
dict are passed over without error.  The result lists the attachments
made. -/
def add_icons (ytick_labels : List String) (icons : List (String × String)) :
    List (String × String) :=
  ytick_labels.filterMap (fun l =>
    (dictLookup l icons).map (fun img => (l, img)))

/-- The worked example dataset of the specification:
D = [(2020,"A",50), (2020,"B",90), (2020,"C",90), (2021,"A",60)]. -/
def exampleRows : List Row :=
  [⟨2020, "A", 50⟩, ⟨2020, "B", 90⟩, ⟨2020, "C", 90⟩, ⟨2021, "A", 60⟩]

/-- The example dataset with all three required columns present. -/
def exampleDf : DataFrame :=
  ⟨true, true, true, exampleRows⟩

/-! ### Lemmas about the stable descending sort -/

theorem insertDesc_perm (r : Row) (l : List Row) :
    List.Perm (insertDesc r l) (r :: l) := by
  induction l with
  | nil => exact List.Perm.refl _
  | cons b bs ih =>
    unfold insertDesc
    by_cases h : b.x > r.x
    · rw [if_pos h]
      exact (ih.cons b).trans (List.Perm.swap r b bs)
    · rw [if_neg h]

theorem sortDesc_perm (l : List Row) : List.Perm (sortDesc l) l := by
  induction l with
  | nil => exact List.Perm.refl _
  | cons a l ih => exact (insertDesc_perm a (sortDesc l)).trans (ih.cons a)

theorem mem_sortDesc (a : Row) (l : List Row) : a ∈ sortDesc l ↔ a ∈ l :=
  (sortDesc_perm l).mem_iff

theorem pairwise_insertDesc (r : Row) (l : List Row)
    (h : l.Pairwise (fun a b => b.x ≤ a.x)) :
    (insertDesc r l).Pairwise (fun a b => b.x ≤ a.x) := by
  induction l with
  | nil => simp [insertDesc]
  | cons b bs ih =>
    rw [List.pairwise_cons] at h
    obtain ⟨hb, hbs⟩ := h
    unfold insertDesc
    by_cases hx : b.x > r.x
    · rw [if_pos hx, List.pairwise_cons]
      refine ⟨fun c hc => ?_, ih hbs⟩
      rcases List.mem_cons.mp ((insertDesc_perm r bs).mem_iff.mp hc) with hc | hc
      · exact hc ▸ le_of_lt hx
      · exact hb c hc
    · rw [if_neg hx, List.pairwise_cons]
      refine ⟨fun c hc => ?_, List.pairwise_cons.mpr ⟨hb, hbs⟩⟩
      rcases List.mem_cons.mp hc with hc | hc
      · exact hc ▸ le_of_not_lt hx
      · exact (hb c hc).trans (le_of_not_lt hx)

theorem sortDesc_sorted (l : List Row) :
    (sortDesc l).Pairwise (fun a b => b.x ≤ a.x) := by
  induction l with
  | nil => simp [sortDesc]
  | cons a l ih => exact pairwise_insertDesc a (sortDesc l) ih

theorem filter_insertDesc (v : Int) (r : Row) (l : List Row) :
    (insertDesc r l).filter (fun b => b.x == v) =
      if r.x = v then r :: l.filter (fun b => b.x == v)
      else l.filter (fun b => b.x == v) := by
  induction l with
  | nil => by_cases h : r.x = v <;> simp [insertDesc, h]
  | cons b bs ih =>
    unfold insertDesc
    by_cases hx : b.x > r.x
    · rw [if_pos hx]
      by_cases hrv : r.x = v
      · have hbv : ¬ b.x = v := by
          intro hbv
          rw [hbv, hrv] at hx
          exact absurd hx (lt_irrefl v)
        simp [List.filter_cons, beq_iff_eq, hbv, ih, hrv]
      · simp [List.filter_cons, beq_iff_eq, ih, hrv]
    · rw [if_neg hx]
      by_cases hrv : r.x = v <;>
        simp [List.filter_cons, beq_iff_eq, hrv]

theorem filter_sortDesc (v : Int) (l : List Row) :
    (sortDesc l).filter (fun b => b.x == v) =
      l.filter (fun b => b.x == v) := by
  induction l with
  | nil => rfl
  | cons a l ih =>
    show (insertDesc a (sortDesc l)).filter (fun b => b.x == v) = _
    rw [filter_insertDesc]
    by_cases h : a.x = v <;> simp [List.filter_cons, beq_iff_eq, h, ih]

/-! ### Lemmas about icon loading and attachment -/

theorem mem_uniqueAux (a : String) (l : List String) : ∀ seen : List String,
    (a ∈ uniqueAux seen l ↔ a ∈ l ∧ a ∉ seen) := by
  induction l with
  | nil => intro seen; simp [uniqueAux]
  | cons b bs ih =>
    intro seen
    unfold uniqueAux
    by_cases hb : b ∈ seen
    · rw [if_pos hb, ih]
      constructor
      · rintro ⟨h1, h2⟩
        exact ⟨List.mem_cons_of_mem _ h1, h2⟩
      · rintro ⟨h1, h2⟩
        rcases List.mem_cons.mp h1 with rfl | h1
        · exact absurd hb h2
        · exact ⟨h1, h2⟩
    · rw [if_neg hb]
      constructor
      · intro h
        rcases List.mem_cons.mp h with rfl | h
        · exact ⟨List.mem_cons_self a bs, hb⟩
        · obtain ⟨h1, h2⟩ := (ih (b :: seen)).mp h
          exact ⟨List.mem_cons_of_mem _ h1,
            fun hs => h2 (List.mem_cons_of_mem _ hs)⟩
      · rintro ⟨h1, h2⟩
        by_cases hab : a = b
        · exact hab ▸ List.mem_cons_self a _
        · rcases List.mem_cons.mp h1 with rfl | h1
          · exact absurd rfl hab
          · refine List.mem_cons_of_mem _ ((ih (b :: seen)).mpr ⟨h1, ?_⟩)
            intro hs
            rcases List.mem_cons.mp hs with rfl | hs
            · exact hab rfl
            · exact h2 hs

theorem mem_uniqueLabels (a : String) (rows : List Row) :
    a ∈ uniqueLabels rows ↔ a ∈ rows.map (fun r => r.label) := by
  rw [uniqueLabels, mem_uniqueAux]
  simp

theorem load_icons_spec (rows : List Row) (folder : String)
    (fs : String → Bool) (p : String × String)
    (hp : p ∈ load_icons rows folder fs) :
    fs (iconPath folder p.1) = true ∧ p.2 = iconPath folder p.1 := by
  unfold load_icons at hp
  rcases List.mem_filterMap.mp hp with ⟨label, _, heq⟩
  by_cases hfs : fs (iconPath folder label) = true
  · rw [if_pos hfs] at heq
    cases heq
    exact ⟨hfs, rfl⟩
  · rw [if_neg hfs] at heq
    cases heq

theorem dictLookup_filterMap_none (folder : String) (fs : String → Bool)
    (l : String) (hmiss : fs (iconPath folder l) = false) :
    ∀ L : List String,
      dictLookup l (L.filterMap (fun label =>
        if fs (iconPath folder label) then
          some (label, iconPath folder label)
        else none)) = none := by
  intro L
  induction L with
  | nil => rfl
  | cons a L ih =>
    rw [List.filterMap_cons]
    by_cases hfa : fs (iconPath folder a) = true
    · rw [if_pos hfa]
      show dictLookup l ((a, iconPath folder a) :: _) = none
      unfold dictLookup
      have hal : (a == l) = false := by
        apply beq_eq_false_iff_ne.mpr
        intro h
        rw [h, hmiss] at hfa
        exact Bool.false_ne_true hfa
      rw [hal]
      exact ih
    · rw [if_neg hfa]
      exact ih

theorem dictLookup_filterMap_some (folder : String) (fs : String → Bool)
    (l : String) (hhit : fs (iconPath folder l) = true) :
    ∀ L : List String, l ∈ L →
      dictLookup l (L.filterMap (fun label =>
        if fs (iconPath folder label) then
          some (label, iconPath folder label)
        else none)) = some (iconPath folder l) := by
  intro L
  induction L with
  | nil => intro h; cases h
  | cons a L ih =>
    intro hmem
    rw [List.filterMap_cons]
    by_cases hal : a = l
    · subst hal
      rw [if_pos hhit]
      show dictLookup a ((a, iconPath folder a) :: _) = _
      unfold dictLookup
      rw [beq_self_eq_true]
      rfl
    · have hmem2 : l ∈ L := by
        rcases List.mem_cons.mp hmem with rfl | h
        · exact absurd rfl hal
        · exact h
      by_cases hfa : fs (iconPath folder a) = true
      · rw [if_pos hfa]
        show dictLookup l ((a, iconPath folder a) :: _) = _
        unfold dictLookup
        rw [beq_eq_false_iff_ne.mpr hal]
        exact ih hmem2
      · rw [if_neg hfa]
        exact ih hmem2

theorem load_icons_lookup_none (rows : List Row) (folder : String)
    (fs : String → Bool) (l : String)
    (hmiss : fs (iconPath folder l) = false) :
    dictLookup l (load_icons rows folder fs) = none :=
  dictLookup_filterMap_none folder fs l hmiss (uniqueLabels rows)

theorem load_icons_lookup_some (rows : List Row) (folder : String)
    (fs : String → Bool) (l : String)
    (hmem : l ∈ rows.map (fun r => r.label))
    (hhit : fs (iconPath folder l) = true) :
    dictLookup l (load_icons rows folder fs) = some (iconPath folder l) :=
  dictLookup_filterMap_some folder fs l hhit (uniqueLabels rows)
    ((mem_uniqueLabels l rows).mpr hmem)

theorem mem_add_icons (yticks : List String) (icons : List (String × String))
    (p : String × String) :
    p ∈ add_icons yticks icons ↔
      p.1 ∈ yticks ∧ dictLookup p.1 icons = some p.2 := by
  unfold add_icons
  rw [List.mem_filterMap]
  constructor
  · rintro ⟨l, hl, heq⟩
    rcases Option.map_eq_some'.mp heq with ⟨img, hd, himg⟩
    cases himg
    exact ⟨hl, hd⟩
  · rintro ⟨h1, h2⟩
    exact ⟨p.1, h1, by rw [h2]; rfl⟩

/-! ### The claims -/

/-- Claim C1: for every dataset D, time key t and rank depth N ≥ 1, the
per-frame selection returns at most N rows, every returned row has time
key t, and every returned row is a member of D. -/
theorem claim1_select_bounded_frame_subset (D : List Row) (t : Int) (n : Nat)
    (hn : 1 ≤ n) :
    (select_top_n D t n).length ≤ n ∧
    (∀ r ∈ select_top_n D t n, r.dt = t) ∧
    (∀ r ∈ select_top_n D t n, r ∈ D) := by
  refine ⟨?_, ?_, ?_⟩
  · rw [select_top_n, List.length_take]
    exact Nat.min_le_left n _
  · intro r hr
    have h1 : r ∈ sortDesc (D.filter (fun a => a.dt == t)) :=
      (List.take_sublist n _).mem hr
    have h2 := (List.mem_filter.mp ((mem_sortDesc r _).mp h1)).2
    exact beq_iff_eq.mp h2
  · intro r hr
    have h1 : r ∈ sortDesc (D.filter (fun a => a.dt == t)) :=
      (List.take_sublist n _).mem hr
    exact (List.mem_filter.mp ((mem_sortDesc r _).mp h1)).1

theorem claim1_witness :
    1 ≤ 2 ∧
    ((select_top_n exampleRows 2020 2).length ≤ 2 ∧
     (∀ r ∈ select_top_n exampleRows 2020 2, r.dt = 2020) ∧
     (∀ r ∈ select_top_n exampleRows 2020 2, r ∈ exampleRows)) :=
  ⟨by decide, claim1_select_bounded_frame_subset exampleRows 2020 2 (by decide)⟩

/-- Claim C2: for every dataset D, time key t and rank depth N ≥ 1, the
rows returned by the selection are ordered by value in non-increasing
order: the (i+1)-th returned value is at most the i-th. -/
theorem claim2_select_nonincreasing (D : List Row) (t : Int) (n : Nat)
    (hn : 1 ≤ n) :
    (select_top_n D t n).Pairwise (fun a b => b.x ≤ a.x) ∧
    ∀ (i : Nat) (h : i + 1 < (select_top_n D t n).length),
      ((select_top_n D t n).get ⟨i + 1, h⟩).x ≤
        ((select_top_n D t n).get ⟨i, Nat.lt_of_succ_lt h⟩).x := by
  have hpw : (select_top_n D t n).Pairwise (fun a b => b.x ≤ a.x) :=
    List.Pairwise.sublist (List.take_sublist n _) (sortDesc_sorted _)
  refine ⟨hpw, fun i h => ?_⟩
  exact List.pairwise_iff_get.mp hpw ⟨i, Nat.lt_of_succ_lt h⟩ ⟨i + 1, h⟩
    (Nat.lt_succ_self i)

theorem claim2_witness :
    1 ≤ 2 ∧
    ((select_top_n exampleRows 2020 2).Pairwise (fun a b => b.x ≤ a.x) ∧
     ∀ (i : Nat) (h : i + 1 < (select_top_n exampleRows 2020 2).length),
       ((select_top_n exampleRows 2020 2).get ⟨i + 1, h⟩).x ≤
         ((select_top_n exampleRows 2020 2).get
           ⟨i, Nat.lt_of_succ_lt h⟩).x) :=
  ⟨by decide, claim2_select_nonincreasing exampleRows 2020 2 (by decide)⟩

/-- Claim C3: the selection's tie-break is stable with respect to input
order: for any value v, the rows of value v in the result form a
subsequence (in particular, appear in the same relative order) of the rows
of value v in D. -/
theorem claim3_select_stable (D : List Row) (t : Int) (n : Nat)
    (hn : 1 ≤ n) (v : Int) :
    List.Sublist ((select_top_n D t n).filter (fun r => r.x == v))
      (D.filter (fun r => r.x == v)) := by
  have h1 : List.Sublist ((select_top_n D t n).filter (fun r => r.x == v))
      ((sortDesc (D.filter (fun r => r.dt == t))).filter
        (fun r => r.x == v)) :=
    (List.take_sublist n _).filter _
  rw [filter_sortDesc] at h1
  exact h1.trans ((List.filter_sublist D).filter _)

theorem claim3_witness :
    1 ≤ 2 ∧
    List.Sublist ((select_top_n exampleRows 2020 2).filter
        (fun r => r.x == 90))
      (exampleRows.filter (fun r => r.x == 90)) :=
  ⟨by decide, claim3_select_stable exampleRows 2020 2 (by decide) 90⟩

/-- Claim C4: if D has fewer than N rows with time key t, the selection
returns exactly those rows (a permutation of the frame, nothing dropped,
nothing added) and the per-frame computation does not fail. -/
theorem claim4_select_complete (D : List Row) (t : Int) (n : Nat)
    (hn : 1 ≤ n) (hlt : (D.filter (fun r => r.dt == t)).length < n) :
    List.Perm (select_top_n D t n) (D.filter (fun r => r.dt == t)) ∧
    ∃ out, animate_frame ⟨true, true, true, D⟩ t n = Except.ok out := by
  constructor
  · have hlen : (sortDesc (D.filter (fun r => r.dt == t))).length ≤ n := by
      rw [(sortDesc_perm _).length_eq]
      exact le_of_lt hlt
    rw [select_top_n, List.take_of_length_le hlen]
    exact sortDesc_perm _
  · exact ⟨_, rfl⟩

theorem claim4_witness :
    (1 ≤ 2 ∧ (exampleRows.filter (fun r => r.dt == 2021)).length < 2) ∧
    (List.Perm (select_top_n exampleRows 2021 2)
        (exampleRows.filter (fun r => r.dt == 2021)) ∧
     ∃ out, animate_frame ⟨true, true, true, exampleRows⟩ 2021 2 =
        Except.ok out) :=
  ⟨by decide, claim4_select_complete exampleRows 2021 2 (by decide) (by decide)⟩

/-- Claim C5 counterexample: at the concrete example dataset, requesting
rank depth N = 0 does not fail at all: the frame computation returns the
empty window (pandas `nlargest(0, 'x')` yields an empty frame), so no
InvalidRank condition is raised. -/
theorem claim5_counterexample :
    animate_frame exampleDf 2020 0 = Except.ok [] ∧
    ∀ e, animate_frame exampleDf 2020 0 ≠ Except.error e := by
  refine ⟨rfl, fun e h => ?_⟩
  rw [show animate_frame exampleDf 2020 0 = Except.ok [] from rfl] at h
  exact Except.noConfusion h

/-- Claim C5 as amended: for every dataset with the required columns and
every time key, rank depth N = 0 returns the empty result without raising
any error; the code defines no InvalidRank condition. -/
theorem claim5_amended_rank_zero_empty (df : DataFrame) (t : Int)
    (hdt : df.hasDt = true) (hlab : df.hasLabel = true)
    (hx : df.hasX = true) :
    animate_frame df t 0 = Except.ok [] := by
  simp [animate_frame, hdt, hlab, hx, select_top_n]

theorem claim5_amended_witness :
    (exampleDf.hasDt = true ∧ exampleDf.hasLabel = true ∧
     exampleDf.hasX = true) ∧
    animate_frame exampleDf 2021 0 = Except.ok [] :=
  ⟨by decide, claim5_amended_rank_zero_empty exampleDf 2021 rfl rfl rfl⟩

/-- Claim C6: if the dataset lacks the time column `dt`, the label column
`label` or the value column `x`, the per-frame computation fails with a
MissingColumn condition (the exception raised on the first absent column
access) rather than returning a result. -/
theorem claim6_missing_column_fails (df : DataFrame) (t : Int) (n : Nat)
    (hn : 1 ≤ n)
    (h : df.hasDt = false ∨ df.hasLabel = false ∨ df.hasX = false) :
    ∃ c, animate_frame df t n = Except.error (FrameError.MissingColumn c) := by
  rcases h with h | h | h
  · exact ⟨"dt", by simp [animate_frame, h]⟩
  · by_cases hdt : df.hasDt = false
    · exact ⟨"dt", by simp [animate_frame, hdt]⟩
    · by_cases hx : df.hasX = false
      · exact ⟨"x", by simp [animate_frame, hdt, hx]⟩
      · exact ⟨"label", by simp [animate_frame, hdt, hx, h]⟩
  · by_cases hdt : df.hasDt = false
    · exact ⟨"dt", by simp [animate_frame, hdt]⟩
    · exact ⟨"x", by simp [animate_frame, hdt, h]⟩

theorem claim6_witness :
    (1 ≤ 2 ∧
     ((⟨true, false, true, exampleRows⟩ : DataFrame).hasDt = false ∨
      (⟨true, false, true, exampleRows⟩ : DataFrame).hasLabel = false ∨
      (⟨true, false, true, exampleRows⟩ : DataFrame).hasX = false)) ∧
    ∃ c, animate_frame ⟨true, false, true, exampleRows⟩ 2020 2 =
      Except.error (FrameError.MissingColumn c) :=
  ⟨by decide,
    claim6_missing_column_fails ⟨true, false, true, exampleRows⟩ 2020 2
      (by decide) (by decide)⟩

/-- Claim C7: the per-frame computation is a pure function of
(dataset, time key, N): it hands the dataset back unchanged, and
re-running the whole frame sequence from the same dataset (here: running
the sequencer over the frame list twice in a row) reproduces exactly the
same results. -/
theorem claim7_pure_restartable (D : List Row) (t : Int) (n : Nat)
    (frames : List Int) :
    (animate_run D t n).2 = D ∧
    frame_sequence D (frames ++ frames) n =
      frame_sequence D frames n ++ frame_sequence D frames n := by
  exact ⟨rfl, by simp [frame_sequence]⟩

/-- Claim C8: on the worked example dataset
D = [(2020,"A",50), (2020,"B",90), (2020,"C",90), (2021,"A",60)] with
N = 2, the selection at 2020 is exactly [("B",90), ("C",90)] in that
order (tie broken by input order) and at 2021 exactly [("A",60)]. -/
theorem claim8_worked_example :
    select_top_n exampleRows 2020 2 =
      [⟨2020, "B", 90⟩, ⟨2020, "C", 90⟩] ∧
    select_top_n exampleRows 2021 2 = [⟨2021, "A", 60⟩] := by
  decide

/-- Claim C9: a label whose icon file is missing is tolerated: it is
omitted from the icon mapping and no image is attached for it, while every
label of the dataset whose icon file exists is mapped to its image and,
when it appears among the drawn tick labels, attached. -/
theorem claim9_missing_icon_tolerated (rows : List Row) (folder : String)
    (fs : String → Bool) (lab : String) (yticks : List String)
    (hmiss : fs (iconPath folder lab) = false) :
    dictLookup lab (load_icons rows folder fs) = none ∧
    (∀ p ∈ add_icons yticks (load_icons rows folder fs), p.1 ≠ lab) ∧
    (∀ l2 ∈ rows.map (fun r => r.label), fs (iconPath folder l2) = true →
      dictLookup l2 (load_icons rows folder fs) =
        some (iconPath folder l2) ∧
      (l2 ∈ yticks →
        (l2, iconPath folder l2) ∈
          add_icons yticks (load_icons rows folder fs))) := by
  refine ⟨load_icons_lookup_none rows folder fs lab hmiss, ?_, ?_⟩
  · intro p hp heq
    have h1 := ((mem_add_icons yticks _ p).mp hp).2
    rw [heq, load_icons_lookup_none rows folder fs lab hmiss] at h1
    exact Option.noConfusion h1
  · intro l2 h1 h2
    refine ⟨load_icons_lookup_some rows folder fs l2 h1 h2, fun hyt => ?_⟩
    exact (mem_add_icons yticks _ (l2, iconPath folder l2)).mpr
      ⟨hyt, load_icons_lookup_some rows folder fs l2 h1 h2⟩

theorem claim9_witness :
    ((fun s => s == "icons/A.png") (iconPath "icons" "B") = false) ∧
    (dictLookup "B"
        (load_icons exampleRows "icons" (fun s => s == "icons/A.png")) =
      none ∧
     (∀ p ∈ add_icons ["A", "B"]
        (load_icons exampleRows "icons" (fun s => s == "icons/A.png")),
        p.1 ≠ "B") ∧
     (∀ l2 ∈ exampleRows.map (fun r => r.label),
        (fun s => s == "icons/A.png") (iconPath "icons" l2) = true →
        dictLookup l2
            (load_icons exampleRows "icons" (fun s => s == "icons/A.png")) =
          some (iconPath "icons" l2) ∧
        (l2 ∈ ["A", "B"] →
          (l2, iconPath "icons" l2) ∈
            add_icons ["A", "B"]
              (load_icons exampleRows "icons"
                (fun s => s == "icons/A.png"))))) :=
  ⟨by decide,
    claim9_missing_icon_tolerated exampleRows "icons"
      (fun s => s == "icons/A.png") "B" ["A", "B"] (by decide)⟩

/-- Claim C10: if the time key t occurs nowhere in D, the selection
returns the empty result for every rank depth N ≥ 1, and the per-frame
computation succeeds (with an empty window) rather than failing. -/
theorem claim10_absent_time_key (D : List Row) (t : Int) (n : Nat)
    (hn : 1 ≤ n) (h : ∀ r ∈ D, r.dt ≠ t) :
    select_top_n D t n = [] ∧
    animate_frame ⟨true, true, true, D⟩ t n = Except.ok [] := by
  have hf : D.filter (fun r => r.dt == t) = [] := by
    rw [List.filter_eq_nil_iff]
    intro a ha
    simpa using h a ha
  constructor
  · simp [select_top_n, hf, sortDesc]
  · simp [animate_frame, select_top_n, hf, sortDesc]

theorem claim10_witness :
    (1 ≤ 3 ∧ ∀ r ∈ exampleRows, r.dt ≠ 1999) ∧
    (select_top_n exampleRows 1999 3 = [] ∧
     animate_frame ⟨true, true, true, exampleRows⟩ 1999 3 =
      Except.ok []) :=
  ⟨by decide, claim10_absent_time_key exampleRows 1999 3 (by decide) (by decide)⟩

end BarRace
